import Mathlib

/-
Verification of the block-model resolution and geometry-baking engine of the
nbt-gltf-conversion repository. The JavaScript sources are embedded shallowly:
JS objects whose insertion order matters become association lists, machine
numbers become rationals (all arithmetic in the verified claims is exact dyadic
arithmetic), fallible operations return Option, and the mutable seen-set of the
texture-reference resolver is threaded explicitly. Fuel parameters replace
unbounded JS loops or recursion; a `none` result means the fuel bound was hit.
-/

namespace NbtGltf

/-- Association-list lookup matching JS object property access `m[k]`
(first binding wins, `none` for a missing key). -/
def getKey {α : Type} (m : List (String × α)) (k : String) : Option α :=
  match m with
  | [] => none
  | (k₁, v) :: t => if k₁ = k then some v else getKey t k

/-- JS `Map.set` / object index assignment: an existing key keeps its position
and gets the new value, a fresh key is appended. -/
def mapSet {α : Type} (m : List (String × α)) (k : String) (v : α) :
    List (String × α) :=
  match m with
  | [] => [(k, v)]
  | (k₁, v₁) :: t => if k₁ = k then (k₁, v) :: t else (k₁, v₁) :: mapSet t k v

/-- JS object spread of `a` then `b` in one literal: keys of `a` first, with
values overridden by `b` where present, then the keys of `b` not in `a`. -/
def spreadObj {α : Type} (a b : List (String × α)) : List (String × α) :=
  a.map (fun p => (p.1, ((getKey b p.1).getD p.2))) ++
    b.filter (fun q => (getKey a q.1).isNone)

/-- Drop `pat` from the front of `s` if it is there, reporting the rest. -/
def dropPrefixCL : List Char → List Char → Option (List Char)
  | [], s => some s
  | _ :: _, [] => none
  | p :: ps, c :: cs => if p = c then dropPrefixCL ps cs else none

/-- Replace the first occurrence of `pat` (nonempty) by `rep`, as JS
`String.replace` with a plain-string pattern does. -/
def replaceFirstCL (pat rep : List Char) : List Char → List Char
  | [] => []
  | c :: cs =>
    match dropPrefixCL pat (c :: cs) with
    | some rest => rep ++ rest
    | none => c :: replaceFirstCL pat rep cs

def replaceFirst (s pat rep : String) : String :=
  ⟨replaceFirstCL pat.data rep.data s.data⟩

def startsWithStr (s pre : String) : Bool :=
  (dropPrefixCL pre.data s.data).isSome

/-- JS regex replace of an anchored pattern such as `^block\/` by the empty
string: strip the text from the front when present. -/
def stripLeading (s pre : String) : String :=
  match dropPrefixCL pre.data s.data with
  | some rest => ⟨rest⟩
  | none => s

/-- JS `value.substring(1)`. -/
def substringFrom1 (s : String) : String := ⟨s.data.drop 1⟩

/-- BlockModelLoader.cleanTexturePath (src/blockmodelloader.js, both loader
variants have the identical body): remove the first `minecraft:` occurrence,
then strip a leading `block/`, `blocks/`, `item/` or `items/` segment. An
empty string passes through (the JS falsy guard). -/
def cleanTexturePath (p : String) : String :=
  if p = "" then p
  else
    stripLeading
      (stripLeading
        (stripLeading
          (stripLeading (replaceFirst p "minecraft:" "") "block/")
          "blocks/")
        "item/")
      "items/"

/-- The fields of a block-model JSON object that the merge functions inspect:
the texture-slot map and the element list. Element objects are copied verbatim
by every merge variant, never inspected, so they are represented by opaque
tokens. An absent field is `none` (JS `undefined`); a JS empty array is
`some []`, which is truthy in JS. -/
structure JModel where
  textures : Option (List (String × String))
  elements : Option (List Nat)
deriving Repr, DecidableEq

/-- BlockModelLoader.mergeModels of the first loader variant
(src/blockmodelloader.js lines 265-287). `target` is the child model being
processed, `source` the processed parent; a null source returns the target
unchanged. Textures: a spread of the source textures then the target textures,
when the source has any. Elements: the parent list is copied only when the target has no
`elements` field at all (a present empty list is truthy in JS and is kept).
The trailing copy loop for other keys does not touch these two fields. -/
def mergeModels (target : JModel) (source : Option JModel) : JModel :=
  match source with
  | none => target
  | some src =>
    let tex := match src.textures with
      | none => target.textures
      | some st => some (spreadObj st (target.textures.getD []))
    let els := match src.elements, target.elements with
      | some se, none => some se
      | _, te => te
    ⟨tex, els⟩

/-- BlockModelLoader.mergeModels of the second loader variant
(src/blockmodelloader.js lines 548-562), called as `mergeModels(parent,
child)`. When both models carry an `elements` field the two lists are
concatenated parent-first; otherwise the child list wins if present (JS
`child.elements || parent.elements`, an empty child list being truthy). -/
def mergeModelsV2 (parent child : JModel) : JModel :=
  let tex := some (spreadObj (parent.textures.getD []) (child.textures.getD []))
  let els := match parent.elements, child.elements with
    | some pe, some ce => some (pe ++ ce)
    | _, _ => (match child.elements with
      | some ce => some ce
      | none => parent.elements)
  ⟨tex, els⟩

/-- JS `a || b` on optional strings: an absent or empty string falls through. -/
def jsOrStr (a b : Option String) : Option String :=
  match a with
  | some s => if s = "" then b else some s
  | none => b

/-- BlockModelLoader.mergeModels of src/unnamed/part_000 (lines 85-105).
Starts from a copy of the parent texture map and writes each child entry in
order, dereferencing a `#slot` child value against the map built so far, then
the child map, keeping the raw value as a last resort. A present child
`elements` field (even an empty list) overrides the parent list. -/
def mergeModelsP0 (parent child : JModel) : JModel :=
  let ct := child.textures.getD []
  let tex := ct.foldl (fun acc kv =>
    if startsWithStr kv.2 "#" then
      let ref := substringFrom1 kv.2
      let rv := (jsOrStr (getKey acc ref)
        (jsOrStr (getKey ct ref) (some kv.2))).getD kv.2
      mapSet acc kv.1 rv
    else mapSet acc kv.1 kv.2) (parent.textures.getD [])
  let els := match child.elements with
    | some ce => some ce
    | none => parent.elements
  ⟨some tex, els⟩

/-- The body of the inner `resolveReference` closure of
BlockModelLoader.resolveTextureReferences (src/blockmodelloader.js lines
235-255 in the first variant, 511-529 in the second; the two bodies agree on
everything modelled here). `tm` is the instance texture map built by
loadBlockModels, `textures` the slot map being resolved, `seen` the mutable
set of values already visited, threaded explicitly and returned. Fuel replaces
the unbounded JS recursion; `none` means the bound was hit. An empty or
already-seen value is returned as is; a `#slot` value dereferences the slot
and recurses when the slot exists; otherwise the cleaned path is looked up in
`tm` and the mapped texture, or the cleaned path itself, is returned. -/
def resolveRefAux (tm textures : List (String × String)) :
    Nat → List String → String → Option (String × List String)
  | 0, _, _ => none
  | n + 1, seen, value =>
    if value = "" then some (value, seen)
    else if value ∈ seen then some (value, seen)
    else if startsWithStr value "#" then
      match getKey textures (substringFrom1 value) with
      | some next => resolveRefAux tm textures n (value :: seen) next
      | none => some (value, value :: seen)
    else
      match getKey tm (cleanTexturePath value) with
      | some mapped => some (mapped, value :: seen)
      | none => some (cleanTexturePath value, value :: seen)

/-- One iteration of the `for (const [key, value] of Object.entries(textures))`
loop of resolveTextureReferences: resolve the entry value, record it under the
entry key, and thread the shared seen set. -/
def resolveStep (tm textures : List (String × String)) (fuel : Nat)
    (acc : Option (List (String × String) × List String)) (kv : String × String) :
    Option (List (String × String) × List String) :=
  match acc with
  | none => none
  | some (res, seen) =>
    match resolveRefAux tm textures fuel seen kv.2 with
    | none => none
    | some (v, seen₁) => some (res ++ [(kv.1, v)], seen₁)

/-- BlockModelLoader.resolveTextureReferences: one `seen` set is created per
call and shared across the per-key loop, exactly as the JS closure shares its
`seen` set. Every key of the slot map is resolved in order. The per-call fuel
`textures.length + 2` is shown sufficient below, so the `Option` never comes
back `none`. -/
def resolveTextureReferences (tm textures : List (String × String)) :
    Option (List (String × String)) :=
  (textures.foldl (resolveStep tm textures (textures.length + 2))
    (some ([], []))).map Prod.fst

/-- The canonical state-string key built by BlockModelLoader.getModel
(src/blockmodelloader.js lines 96-98): `key=value` pairs joined by commas in
object insertion order (the trailing `||` for the empty case is the identity,
since joining an empty list already yields the empty string). -/
def stateString (bs : List (String × String)) : String :=
  String.intercalate "," (bs.map (fun p => p.1 ++ "=" ++ p.2))

/-- The variant selection of BlockModelLoader.getModel (src/blockmodelloader.js
line 100): the variant under the state-string key, else the variant under
the empty-string key (JS logical-or)
(variant specs are JS objects, hence truthy whenever present). -/
def selectVariant {α : Type} (variants : List (String × α))
    (bs : List (String × String)) : Option α :=
  match getKey variants (stateString bs) with
  | some v => some v
  | none => getKey variants ""

/-- The parent-name patterns tried by BlockModelLoader.processModel
(src/blockmodelloader.js lines 154-169): the raw parent name, the name without
`minecraft:`, that prefixed by `block/`, and the name without `block/`; the
first pattern found in the catalog wins. The catalog maps each model name to
the own `parent` field of each model, the only field that drives the recursion whose
termination claim C1 is about. -/
def findParentPattern (models : List (String × Option String)) (p : String) :
    Option (Option String) :=
  let p₂ := replaceFirst p "minecraft:" ""
  ((getKey models p).orElse fun _ =>
    ((getKey models p₂).orElse fun _ =>
      ((getKey models ("block/" ++ p₂)).orElse fun _ =>
        getKey models (replaceFirst p "block/" ""))))

/-- The parent-inheritance recursion of BlockModelLoader.processModel
(src/blockmodelloader.js lines 145-189): a model is processed by first
processing its found parent recursively. The argument is the `parent` field of
the model being processed; `some ()` means the recursion completed (the merge
and texture steps that follow always do), `none` that the fuel ran out. The JS
has no visited set, no depth bound and no cycle error. -/
def processModelChain (models : List (String × Option String)) :
    Nat → Option String → Option Unit
  | 0, _ => none
  | _ + 1, none => some ()
  | n + 1, some p =>
    match findParentPattern models p with
    | none => some ()
    | some pm => processModelChain models n pm

/-- The parent-chain walk of BlockModelLoader.getModel in src/unnamed/part_000
(lines 61-73): `while (currentModel?.parent)`, looking the parent up under its
name with `minecraft:block/` removed and stopping only at a missing parent.
The argument is the `parent` field of the current model; `some k` means the
walk ended after accumulating a chain of `k` parents, `none` that the fuel ran
out. The JS loop has no visited set and no cycle error. -/
def resolveParentChain (models : List (String × Option String)) :
    Nat → Option String → Option Nat
  | 0, _ => none
  | _ + 1, none => some 0
  | n + 1, some p =>
    match getKey models (replaceFirst p "minecraft:block/" "") with
    | none => some 0
    | some pm => (resolveParentChain models n pm).map (· + 1)

/-- A point of three.js geometry, with exact rational coordinates (every
coordinate arising in the verified claims is a dyadic rational, represented
exactly by the JS doubles). -/
structure Vec3 where
  x : ℚ
  y : ℚ
  z : ℚ
deriving Repr, DecidableEq

/-- three.js `geometry.rotateX` on one vertex; `c`/`s` are the cosine and sine
of the angle. -/
def rotateXv (c s : ℚ) (v : Vec3) : Vec3 :=
  ⟨v.x, c * v.y - s * v.z, s * v.y + c * v.z⟩

/-- three.js `geometry.rotateY` on one vertex. -/
def rotateYv (c s : ℚ) (v : Vec3) : Vec3 :=
  ⟨c * v.x + s * v.z, v.y, -s * v.x + c * v.z⟩

/-- three.js `geometry.rotateZ` on one vertex. -/
def rotateZv (c s : ℚ) (v : Vec3) : Vec3 :=
  ⟨c * v.x - s * v.y, s * v.x + c * v.y, v.z⟩

/-- The `switch (axis)` of the element-rotation code: an unknown axis leaves
the geometry unrotated (the JS switch has no default case). -/
def rotAxis (axis : String) (c s : ℚ) (v : Vec3) : Vec3 :=
  if axis = "x" then rotateXv c s v
  else if axis = "y" then rotateYv c s v
  else if axis = "z" then rotateZv c s v
  else v

/-- Exact cosine of an angle given in degrees, for the quarter-turn angles
used by block-state whole-model rotations and face UV rotations (the tables
only contain multiples of 90; other inputs do not occur there). -/
def cosQ (d : Int) : ℚ :=
  let r := d % 360 + (if d % 360 < 0 then 360 else 0)
  if r = 0 then 1 else if r = 90 then 0 else if r = 180 then -1
  else if r = 270 then 0 else 0

/-- Exact sine of an angle given in degrees, for quarter-turn angles. -/
def sinQ (d : Int) : ℚ :=
  let r := d % 360 + (if d % 360 < 0 then 360 else 0)
  if r = 0 then 0 else if r = 90 then 1 else if r = 180 then 0
  else if r = 270 then -1 else 0

/-- The 8 distinct corner positions of a `THREE.BoxGeometry(sx, sy, sz)`,
which is centered on the origin; they determine the extent of the box. -/
def boxCorners (sx sy sz : ℚ) : List Vec3 :=
  [⟨-sx/2, -sy/2, -sz/2⟩, ⟨sx/2, -sy/2, -sz/2⟩,
   ⟨-sx/2, sy/2, -sz/2⟩, ⟨sx/2, sy/2, -sz/2⟩,
   ⟨-sx/2, -sy/2, sz/2⟩, ⟨sx/2, -sy/2, sz/2⟩,
   ⟨-sx/2, sy/2, sz/2⟩, ⟨sx/2, sy/2, sz/2⟩]

/-- three.js `geometry.translate` on a vertex list. -/
def translateV (t : Vec3) (vs : List Vec3) : List Vec3 :=
  vs.map (fun v => ⟨v.x + t.x, v.y + t.y, v.z + t.z⟩)

/-- Componentwise minimum over a vertex list: the lower corner of the
bounding box the vertices span. -/
def lowerCorner : List Vec3 → Vec3
  | [] => ⟨0, 0, 0⟩
  | v :: t => t.foldl (fun a w => ⟨min a.x w.x, min a.y w.y, min a.z w.z⟩) v

/-- Componentwise maximum over a vertex list: the upper corner of the
bounding box the vertices span. -/
def upperCorner : List Vec3 → Vec3
  | [] => ⟨0, 0, 0⟩
  | v :: t => t.foldl (fun a w => ⟨max a.x w.x, max a.y w.y, max a.z w.z⟩) v

/-- A FaceSpec as both geometry bakers read it: the 0-16 `uv` rectangle, the
`#slot` texture reference, and the optional UV rotation in degrees. -/
structure RFace where
  uv : Option (List ℚ)
  texture : Option String
  rotation : Option Int
deriving Repr, DecidableEq

/-- An element rotation as the bakers read it. `c` and `s` are the cosine and
sine of `angle`, evaluated outside the embedding (`Math.cos`/`Math.sin`);
they are carried as exact rationals because no verified claim depends on their
values and the element angles `±22.5°`/`±45°` have irrational sines. -/
structure ERot where
  origin : Option (List ℚ)
  axis : String
  c : ℚ
  s : ℚ
deriving Repr, DecidableEq

/-- A geometry element as both bakers read it. Absent JSON fields are
`none`. -/
structure MElement where
  efrom : Option (List ℚ)
  eto : Option (List ℚ)
  erot : Option ERot
  faces : Option (List (String × RFace))
deriving Repr, DecidableEq

/-- A model as both geometry bakers read it (only `elements` is consulted by
the baked-geometry paths being verified). -/
structure RModel where
  elements : Option (List MElement)
deriving Repr, DecidableEq

/-- The face names accepted by BlockModelRenderer.createGeometryFromModel
(its `faceMap`, src/blockmodelrenderer.js lines 126-133). -/
def faceMapNames : List String := ["east", "west", "up", "down", "south", "north"]

/-- The conditional UV scaling of BlockModelRenderer.createGeometryFromModel
(line 147): `v > 1 ? v / 16 : v`. -/
def rendererScaleUV (v : ℚ) : ℚ := if 1 < v then v / 16 else v

/-- The `rotatePoint` closure of BlockModelRenderer.createGeometryFromModel
(lines 156-165), rotating a UV corner about the sub-rectangle center. -/
def rotUVPoint (c s : ℚ) (center p : ℚ × ℚ) : ℚ × ℚ :=
  let du := p.1 - center.1
  let dv := p.2 - center.2
  (center.1 + du * c - dv * s, center.2 + du * s + dv * c)

/-- The four UV corners BlockModelRenderer.createGeometryFromModel writes for
one face (lines 137-189), in attribute order: a face with no `uv`, a `uv` of
the wrong length, or an unknown name is skipped (`none`, leaving the default
box UVs); otherwise the corners are the conditionally scaled rectangle
corners, rotated about the rectangle center when `rotation` is truthy. The
face `texture` field is never consulted. -/
def rendererFaceUVCorners (f : RFace) : Option (List (ℚ × ℚ)) :=
  match f.uv with
  | none => none
  | some uvr =>
    if uvr.length = 4 then
      let u₀ := rendererScaleUV (uvr.getD 0 0)
      let v₀ := rendererScaleUV (uvr.getD 1 0)
      let u₁ := rendererScaleUV (uvr.getD 2 0)
      let v₁ := rendererScaleUV (uvr.getD 3 0)
      let plain := [(u₀, v₀), (u₁, v₀), (u₀, v₁), (u₁, v₁)]
      match f.rotation with
      | some rot =>
        if rot ≠ 0 then
          let c := cosQ rot
          let s := sinQ rot
          let ctr := ((u₀ + u₁) / 2, (v₀ + v₁) / 2)
          some [rotUVPoint c s ctr (u₀, v₀), rotUVPoint c s ctr (u₁, v₀),
                rotUVPoint c s ctr (u₀, v₁), rotUVPoint c s ctr (u₁, v₁)]
        else some plain
      | none => some plain
    else none

/-- The per-face UV overrides a baked element carries: only faces that pass
the renderer checks are listed; all other attribute slots keep the
`BoxGeometry` default UVs. -/
def rendererBakeFaces (faces : Option (List (String × RFace))) :
    List (String × List (ℚ × ℚ)) :=
  match faces with
  | none => []
  | some fs => fs.filterMap (fun kv =>
      if kv.1 ∈ faceMapNames then
        (rendererFaceUVCorners kv.2).map (fun cs => (kv.1, cs))
      else none)

/-- The vertex positions BlockModelRenderer.createGeometryFromModel builds for
one element (src/blockmodelrenderer.js lines 64-122): `none` when the element
is skipped (missing `from`/`to` or wrong arity). Sizes are `|to - from| / 16`
clamped below by `0.001`; the box is translated so its `from` corner sits at
`from / 16` (position `from/16 + size/2` of the box center — no `-0.5`
recentering); an element rotation with a 3-ary origin translates by
`-origin/16`, rotates, and translates back. -/
def rendererElementVerts (e : MElement) : Option (List Vec3) :=
  match e.efrom, e.eto with
  | some f, some t =>
    if f.length = 3 ∧ t.length = 3 then
      let f₀ := f.getD 0 0
      let f₁ := f.getD 1 0
      let f₂ := f.getD 2 0
      let sx := |t.getD 0 0 - f₀| / 16
      let sy := |t.getD 1 0 - f₁| / 16
      let sz := |t.getD 2 0 - f₂| / 16
      let dx := max sx (1/1000)
      let dy := max sy (1/1000)
      let dz := max sz (1/1000)
      let pos : Vec3 := ⟨f₀/16 + sx/2, f₁/16 + sy/2, f₂/16 + sz/2⟩
      let base := translateV pos (boxCorners dx dy dz)
      some (match e.erot with
        | some r =>
          match r.origin with
          | some o =>
            if o.length = 3 then
              let ro : Vec3 := ⟨o.getD 0 0 / 16, o.getD 1 0 / 16, o.getD 2 0 / 16⟩
              translateV ro
                ((translateV ⟨-ro.x, -ro.y, -ro.z⟩ base).map (rotAxis r.axis r.c r.s))
            else base
          | none => base
        | none => base)
    else none
  | _, _ => none

/-- One element as baked by the renderer: its vertex positions together with
its per-face UV overrides. -/
structure BakedElement where
  verts : List Vec3
  faceUVs : List (String × List (ℚ × ℚ))
deriving Repr, DecidableEq

def rendererBakeElement (e : MElement) : Option BakedElement :=
  (rendererElementVerts e).map (fun vs => ⟨vs, rendererBakeFaces e.faces⟩)

/-- The possible results of BlockModelRenderer.createGeometryFromModel: a
clone of the default unit box, the single baked element, or the merged
geometry handle produced by the external `mergeGeometries`. -/
inductive RGeo where
  | defaultClone
  | single (g : BakedElement)
  | merged (g : Nat)
deriving Repr, DecidableEq

/-- BlockModelRenderer.createGeometryFromModel (src/blockmodelrenderer.js
lines 57-217). `mergeFn` stands for the external
`BufferGeometryUtils.mergeGeometries`, which may return null or throw — both
modelled as `none`, in which case the default clone is returned (the JS
`mergedGeometry || this.defaultGeometry.clone()` and the surrounding catch).
A null model, an absent or empty element list, or a model whose every element
is skipped also yields the default clone; a single surviving element is
returned unmerged. -/
def createGeometryFromModel (mergeFn : List BakedElement → Option Nat) :
    Option RModel → RGeo
  | none => RGeo.defaultClone
  | some ⟨none⟩ => RGeo.defaultClone
  | some ⟨some els⟩ =>
    if els.length = 0 then RGeo.defaultClone
    else
      match els.filterMap rendererBakeElement with
      | [] => RGeo.defaultClone
      | [g] => RGeo.single g
      | g :: g₂ :: rest =>
        match mergeFn (g :: g₂ :: rest) with
        | some h => RGeo.merged h
        | none => RGeo.defaultClone

/-- The vertex positions EnhancedMockWorker.createGeometryFromModel builds for
one element (src/enhancedmockworker.js lines 519-550, third worker variant):
`none` when the element is skipped (missing `from`, `to` or `faces`). Both
corners are divided by 16 and the box center is translated to
`from/16 + size/2 - 0.5`, so element coordinates obey the `coord/16 - 0.5`
rule; a rotation origin is converted by the same rule. A rotation object
without an origin would throw in JS; it does not occur in the catalog and is
left unrotated here. -/
def workerElementVerts (e : MElement) : Option (List Vec3) :=
  match e.efrom, e.eto, e.faces with
  | some f, some t, some _ =>
    let f₀ := f.getD 0 0 / 16
    let f₁ := f.getD 1 0 / 16
    let f₂ := f.getD 2 0 / 16
    let w := |t.getD 0 0 / 16 - f₀|
    let h := |t.getD 1 0 / 16 - f₁|
    let d := |t.getD 2 0 / 16 - f₂|
    let pos : Vec3 := ⟨f₀ + w/2 - 1/2, f₁ + h/2 - 1/2, f₂ + d/2 - 1/2⟩
    let base := translateV pos (boxCorners w h d)
    some (match e.erot with
      | some r =>
        match r.origin with
        | some o =>
          let ro : Vec3 := ⟨o.getD 0 0 / 16 - 1/2, o.getD 1 0 / 16 - 1/2,
            o.getD 2 0 / 16 - 1/2⟩
          translateV ro
            ((translateV ⟨-ro.x, -ro.y, -ro.z⟩ base).map (rotAxis r.axis r.c r.s))
        | none => base
      | none => base)
  | _, _, _ => none

/-- The variant whole-model rotation as EnhancedMockWorker reads it from the
block-state table: `x` and `y` in degrees (multiples of 90 in the table). -/
structure StateRot where
  x : Int
  y : Int
deriving Repr, DecidableEq

/-- The final whole-model rotation step of
EnhancedMockWorker.createGeometryFromModel (src/enhancedmockworker.js lines
602-608) on one vertex: `rotateY` is applied first when `blockState.y` is
truthy, then `rotateX` when `blockState.x` is truthy, both about the origin
(which is the block center in the centered coordinates of this baker). -/
def applyBlockStateRotation (bs : StateRot) (v : Vec3) : Vec3 :=
  let v₁ := if bs.y ≠ 0 then rotateYv (cosQ bs.y) (sinQ bs.y) v else v
  if bs.x ≠ 0 then rotateXv (cosQ bs.x) (sinQ bs.x) v₁ else v₁

/-- Modelled from the spec wording of §4.3: the whole-model rotation applied
in the order X first, then Y, both about the block center. Stated for
comparison with `applyBlockStateRotation`, the order the code implements. -/
def specOrderStateRotation (bs : StateRot) (v : Vec3) : Vec3 :=
  let v₁ := if bs.x ≠ 0 then rotateXv (cosQ bs.x) (sinQ bs.x) v else v
  if bs.y ≠ 0 then rotateYv (cosQ bs.y) (sinQ bs.y) v₁ else v₁

/-- The merged vertex set EnhancedMockWorker.createGeometryFromModel holds
just before the block-state rotation (lines 586-600): no surviving element
gives a default unit box, one gives that element, several give the merge of
all of them — unless the external `mergeGeometries` throws (`mergeOk =
false`), in which case the first element alone survives. -/
def workerMergedVerts (els : List MElement) (mergeOk : Bool) : List Vec3 :=
  match els.filterMap workerElementVerts with
  | [] => boxCorners 1 1 1
  | [g] => g
  | g :: g₂ :: rest => if mergeOk then (g :: g₂ :: rest).flatten else g

/-- EnhancedMockWorker.createGeometryFromModel (src/enhancedmockworker.js
lines 499-611), at the level of vertex positions. A model that is null or has
no `elements` field returns a unit box at once — before the rotation step.
Otherwise the merged element vertices are built first and the whole-model
block-state rotation is applied to the entire merged set afterwards. -/
def createGeometryFromModelW (model : Option RModel) (bs : Option StateRot)
    (mergeOk : Bool) : List Vec3 :=
  match model with
  | none => boxCorners 1 1 1
  | some m =>
    match m.elements with
    | none => boxCorners 1 1 1
    | some els =>
      let base := workerMergedVerts els mergeOk
      match bs with
      | none => base
      | some r => base.map (applyBlockStateRotation r)

/-- The atlas rectangle of one texture in 0-1 atlas space
(TextureAtlasMapping). -/
structure AtlasRect where
  x : ℚ
  y : ℚ
  w : ℚ
  h : ℚ
deriving Repr, DecidableEq

/-- The three.js texture transform the worker configures in `createMaterial`
(src/enhancedmockworker.js lines 76-81: `map.repeat.set(width, height)`,
`map.offset.set(x, y)`): a sampled UV coordinate becomes
`offset + uv * repeat`. This, not the baked face UVs, is where atlas-space
remapping happens. -/
def atlasTransform (r : AtlasRect) (p : ℚ × ℚ) : ℚ × ℚ :=
  (r.x + p.1 * r.w, r.y + p.2 * r.h)

/-- The scene-registration state of EnhancedMockWorker: the `meshes` registry
(a JS Map from mesh id to mesh) and the scene children list. Render units are
identified by opaque tokens. -/
structure SceneState where
  meshes : List (String × Nat)
  scene : List Nat
deriving Repr, DecidableEq

/-- EnhancedMockWorker.addMeshToScene (src/enhancedmockworker.js lines
127-136; the addMesh body of the third variant, lines 675-689, performs the
same steps): when the key is already registered the old unit is removed from
the scene and released, then the registry entry is replaced and the new unit
added to the scene. -/
def addMeshToScene (st : SceneState) (meshId : String) (mesh : Nat) : SceneState :=
  match getKey st.meshes meshId with
  | some oldMesh => ⟨mapSet st.meshes meshId mesh, st.scene.erase oldMesh ++ [mesh]⟩
  | none => ⟨mapSet st.meshes meshId mesh, st.scene ++ [mesh]⟩

/-- A whole sequence of scene registrations starting from an empty scene. -/
def runAddMesh (calls : List (String × Nat)) : SceneState :=
  calls.foldl (fun st c => addMeshToScene st c.1 c.2) ⟨[], []⟩

/-- A two-model catalog with a parent cycle: model `A` has `parent: "B"` and
model `B` has `parent: "A"` (each model represented by its `parent` field). -/
def cycCatalog : List (String × Option String) := [("A", some "B"), ("B", some "A")]

/-- A FaceSpec with the full `uv = [0, 0, 16, 16]` rectangle and the given
texture reference. -/
def fullFace (tex : String) : RFace := ⟨some [0, 0, 16, 16], some tex, none⟩

/-- The six-face map of the full-cube scenario element. -/
def fullCubeFaces : List (String × RFace) :=
  [("north", fullFace "#all"), ("south", fullFace "#all"),
   ("east", fullFace "#all"), ("west", fullFace "#all"),
   ("up", fullFace "#all"), ("down", fullFace "#all")]

/-- The full-cube element of the spec scenarios: `from = [0,0,0]`,
`to = [16,16,16]`, no rotation, all six faces with `uv = [0,0,16,16]`. -/
def fullCubeElement : MElement :=
  ⟨some [0, 0, 0], some [16, 16, 16], none, some fullCubeFaces⟩

/-- The block-state variants table of the C6 scenario: only the state string
`half=top,facing=north` has a cataloged variant (its model name), and there is
no empty-string base variant. -/
def oakDoorVariants : List (String × String) := [("half=top,facing=north", "oak_door_top")]

/-- The face map of the C8 scenario element: the north face references the
texture slot `#missing` (absent from every slot map), the south face an
ordinary slot. -/
def missingFaces : List (String × RFace) :=
  [("north", fullFace "#missing"), ("south", fullFace "#side")]

/-- The element of the C8 scenario: a full cube with `missingFaces`. -/
def missingFaceElement : MElement :=
  ⟨some [0, 0, 0], some [16, 16, 16], none, some missingFaces⟩

/- ============ THEOREMS ============ -/

theorem getKey_append {α : Type} (l₁ l₂ : List (String × α)) (k : String) :
    getKey (l₁ ++ l₂) k = ((getKey l₁ k).orElse (fun _ => getKey l₂ k)) := by
  induction l₁ with
  | nil => simp [getKey]
  | cons h t ih =>
    simp only [List.cons_append, getKey]
    by_cases hk : h.1 = k
    · simp [hk]
    · simp [hk, ih]

theorem getKey_map_value {α : Type} (l : List (String × α))
    (f : String × α → α) (k : String) :
    getKey (l.map (fun p => (p.1, f p))) k = (l.find? (fun p => p.1 = k)).map f := by
  induction l with
  | nil => simp [getKey]
  | cons h t ih =>
    simp only [List.map_cons, getKey, List.find?]
    by_cases hk : h.1 = k
    · simp [hk]
    · simp [hk, ih]

theorem getKey_eq_find? {α : Type} (l : List (String × α)) (k : String) :
    getKey l k = (l.find? (fun p => p.1 = k)).map Prod.snd := by
  induction l with
  | nil => simp [getKey]
  | cons h t ih =>
    simp only [getKey, List.find?]
    by_cases hk : h.1 = k
    · simp [hk]
    · simp [hk, ih]

theorem getKey_filter_of_key {α : Type} (b : List (String × α))
    (cond : String × α → Bool) (k : String)
    (h : ∀ q ∈ b, q.1 = k → cond q = true) :
    getKey (b.filter cond) k = getKey b k := by
  induction b with
  | nil => rfl
  | cons q t ih =>
    have ih₁ := ih (fun x hx hxk => h x (List.mem_cons_of_mem q hx) hxk)
    by_cases hq : q.1 = k
    · have hc : cond q = true := h q (List.mem_cons_self q t) hq
      simp [List.filter, hc, getKey, hq]
    · cases hc : cond q
      · simp [List.filter, hc, getKey, hq, ih₁]
      · simp [List.filter, hc, getKey, hq, ih₁]

/-- Lookup in a JS spread: the second object wins on shared keys, the first
object supplies everything else. -/
theorem getKey_spreadObj {α : Type} (a b : List (String × α)) (k : String) :
    getKey (spreadObj a b) k =
      ((getKey b k).orElse (fun _ => getKey a k)) := by
  unfold spreadObj
  rw [getKey_append, getKey_map_value]
  rcases hfa : a.find? (fun p => p.1 = k) with _ | pa
  · have ha : getKey a k = none := by rw [getKey_eq_find?, hfa]; rfl
    have hfilt : getKey (b.filter (fun q => (getKey a q.1).isNone)) k =
        getKey b k := by
      apply getKey_filter_of_key
      intro q _ hqk
      rw [hqk, ha]
      rfl
    rw [hfa]
    rcases hgb : getKey b k with _ | vb
    · simp [hfilt, hgb, ha, Option.orElse]
    · simp [hfilt, hgb, Option.orElse]
  · have hpak : pa.1 = k := by
      have := List.find?_some hfa
      simpa using this
    have hga : getKey a k = some pa.2 := by
      rw [getKey_eq_find?, hfa]; rfl
    rw [hfa]
    rcases hgb : getKey b k with _ | vb
    · simp [hgb, hpak, hga, Option.orElse]
    · simp [hgb, hpak, Option.orElse]

theorem getKey_some_mem_snd {α : Type} {m : List (String × α)} {k : String}
    {v : α} (h : getKey m k = some v) : v ∈ m.map Prod.snd := by
  induction m with
  | nil => cases h
  | cons hd t ih =>
    rw [getKey] at h
    by_cases hk : hd.1 = k
    · rw [if_pos hk] at h
      cases h
      exact List.mem_cons_self _ _
    · rw [if_neg hk] at h
      exact List.mem_cons_of_mem _ (ih h)

theorem getKey_none_iff {α : Type} (m : List (String × α)) (k : String) :
    getKey m k = none ↔ k ∉ m.map Prod.fst := by
  induction m with
  | nil => simp [getKey]
  | cons hd t ih =>
    rw [getKey]
    by_cases hk : hd.1 = k
    · simp [hk]
    · simp [hk, ih, Ne.symm hk]

/-- C1: the spec requires a `CyclicModelError` within a bounded number of
resolution steps for the two-model parent cycle, but the code has no cycle
detection, no visited set and no such error anywhere: in the cyclic catalog
both the parent-chain walk of src/unnamed/part_000 getModel and the recursive
parent processing of BlockModelLoader.processModel are still unfinished after
`n` steps, for every `n` — resolution never terminates on this input. -/
theorem c1_cyclic_parent_chain_never_terminates (n : Nat) :
    resolveParentChain cycCatalog n (some "A") = none ∧
    resolveParentChain cycCatalog n (some "B") = none ∧
    processModelChain cycCatalog n (some "A") = none ∧
    processModelChain cycCatalog n (some "B") = none := by
  induction n with
  | zero => exact ⟨rfl, rfl, rfl, rfl⟩
  | succ k ih =>
    refine ⟨?_, ?_, ?_, ?_⟩
    · show (resolveParentChain cycCatalog k (some "B")).map (· + 1) = none
      rw [ih.2.1]; rfl
    · show (resolveParentChain cycCatalog k (some "A")).map (· + 1) = none
      rw [ih.1]; rfl
    · show processModelChain cycCatalog k (some "B") = none
      exact ih.2.2.2
    · show processModelChain cycCatalog k (some "A") = none
      exact ih.2.2.1

/-- C2 counterexample: in the second loader variant of mergeModels, a child
with the non-empty element list `[2]` merged onto a parent with elements `[1]`
yields the parent elements followed by the child elements — appended, not
replaced — refuting the claim that a non-empty child list always yields
exactly the child elements. -/
theorem c2_counterexample_elements_appended :
    (mergeModelsV2 ⟨some [], some [1]⟩ ⟨some [], some [2]⟩).elements = some [1, 2] ∧
    ¬ (mergeModelsV2 ⟨some [], some [1]⟩ ⟨some [], some [2]⟩).elements = some [2] := by
  decide

/-- C2 amended: in the first variant of mergeModels a child with a present
`elements` field (even an empty list) keeps exactly its own elements and a
child with an absent field inherits the parent list verbatim; the same holds
in the part_000 variant; in the second variant, when parent and child both
carry an `elements` field the result is the parent list followed by the child
list; texture slots merge additively with child entries overriding parent
entries of the same name in both loader variants. -/
theorem c2_merge_inheritance_semantics :
    (∀ (t s : JModel) (es : List Nat), t.elements = some es →
      (mergeModels t (some s)).elements = some es) ∧
    (∀ t s : JModel, t.elements = none →
      (mergeModels t (some s)).elements = s.elements) ∧
    (∀ (p c : JModel) (pe ce : List Nat), p.elements = some pe →
      c.elements = some ce → (mergeModelsV2 p c).elements = some (pe ++ ce)) ∧
    (∀ (p c : JModel) (ce : List Nat), c.elements = some ce →
      (mergeModelsP0 p c).elements = some ce) ∧
    (∀ (t s : JModel) (st tt : List (String × String)) (k : String),
      s.textures = some st → t.textures = some tt →
      getKey ((mergeModels t (some s)).textures.getD []) k =
        ((getKey tt k).orElse fun _ => getKey st k)) ∧
    (∀ (p c : JModel) (k : String),
      getKey ((mergeModelsV2 p c).textures.getD []) k =
        ((getKey (c.textures.getD []) k).orElse fun _ =>
          getKey (p.textures.getD []) k)) := by
  refine ⟨?_, ?_, ?_, ?_, ?_, ?_⟩
  · intro t s es h
    cases hs : s.elements <;> simp [mergeModels, h, hs]
  · intro t s h
    cases hs : s.elements <;> simp [mergeModels, h, hs]
  · intro p c pe ce hp hc
    simp [mergeModelsV2, hp, hc]
  · intro p c ce hc
    simp [mergeModelsP0, hc]
  · intro t s st tt k hs ht
    simp only [mergeModels, hs, ht, Option.getD_some]
    exact getKey_spreadObj st tt k
  · intro p c k
    simp only [mergeModelsV2, Option.getD_some]
    exact getKey_spreadObj (p.textures.getD []) (c.textures.getD []) k

/-- Witness for the amended C2 statement at concrete models. -/
theorem c2_merge_inheritance_semantics_witness :
    (mergeModels ⟨some [("a", "x")], some [7]⟩
      (some ⟨some [("a", "y"), ("b", "z")], some [5]⟩)).elements = some [7] ∧
    (mergeModels ⟨none, none⟩ (some ⟨none, some [5]⟩)).elements = some [5] ∧
    (mergeModelsV2 ⟨none, some [1]⟩ ⟨none, some [2]⟩).elements = some [1, 2] ∧
    (mergeModelsP0 ⟨none, some [1]⟩ ⟨none, some []⟩).elements = some [] ∧
    getKey ((mergeModels ⟨some [("a", "x")], some [7]⟩
      (some ⟨some [("a", "y"), ("b", "z")], some [5]⟩)).textures.getD []) "a" =
      some "x" := by
  refine ⟨c2_merge_inheritance_semantics.1 _ _ _ rfl,
    c2_merge_inheritance_semantics.2.1 _ _ rfl,
    c2_merge_inheritance_semantics.2.2.1 _ _ _ _ rfl rfl,
    c2_merge_inheritance_semantics.2.2.2.1 _ _ _ rfl, ?_⟩
  rw [c2_merge_inheritance_semantics.2.2.2.2.1 _ _ _ _ "a" rfl rfl]
  decide

theorem rendererFaceUVCorners_fullFace (tex : String) :
    rendererFaceUVCorners (fullFace tex) = some [(0, 0), (1, 0), (0, 1), (1, 1)] := by
  unfold fullFace rendererFaceUVCorners rendererScaleUV
  norm_num [List.getD]

/-- C5 counterexample: the renderer bakes the face `uv = [0,0,16,16]` into the
local corners `(0,0)-(1,1)`; the baked face UVs do not lie inside the atlas
rectangle `[0.25,0.3125] x [0.5,0.5625]` the claim says they exactly cover —
no atlas remap is applied to the geometry UV buffer. -/
theorem c5_counterexample_face_uvs_not_in_atlas_space :
    rendererFaceUVCorners (fullFace "#all") = some [(0, 0), (1, 0), (0, 1), (1, 1)] ∧
    ¬ (∀ p ∈ (rendererFaceUVCorners (fullFace "#all")).getD [],
        1/4 ≤ p.1 ∧ p.1 ≤ 5/16 ∧ 1/2 ≤ p.2 ∧ p.2 ≤ 9/16) := by
  refine ⟨rendererFaceUVCorners_fullFace "#all", fun h => ?_⟩
  have h₀ := h (0, 0) (by rw [rendererFaceUVCorners_fullFace]; simp)
  norm_num at h₀

/-- C5 amended: the baked face UVs stay in block-local 0-1 space (the 0-16
rectangle is divided by 16 at bake time), and atlas-space remapping happens in
the material texture transform `offset + uv * repeat` configured from the
atlas rectangle; composing the two maps the `uv = [0,0,16,16]` face of a
texture with atlas rectangle `(0.25, 0.5, 0.0625, 0.0625)` exactly onto
`[0.25,0.5]-[0.3125,0.5625]`, and the transform is literally
`atlasU = atlasRect.x + localU * atlasRect.width` (same for V). -/
theorem c5_atlas_remap_happens_in_material :
    rendererFaceUVCorners (fullFace "#all") = some [(0, 0), (1, 0), (0, 1), (1, 1)] ∧
    ((rendererFaceUVCorners (fullFace "#all")).getD []).map
        (atlasTransform ⟨1/4, 1/2, 1/16, 1/16⟩) =
      [(1/4, 1/2), (5/16, 1/2), (1/4, 9/16), (5/16, 9/16)] ∧
    (∀ (r : AtlasRect) (u v : ℚ),
      atlasTransform r (u, v) = (r.x + u * r.w, r.y + v * r.h)) := by
  refine ⟨rendererFaceUVCorners_fullFace "#all", ?_, fun r u v => rfl⟩
  rw [rendererFaceUVCorners_fullFace]
  simp only [Option.getD_some, List.map_cons, List.map_nil, atlasTransform]
  norm_num

/-- C6 counterexample: with only the variant key `half=top,facing=north`
cataloged and no empty-string variant, resolving the state set
`half=top, facing=north, unknown_prop=x` selects no variant at all — the
partially matching cataloged variant is not chosen, refuting the claim that
this resolution returns that variant. -/
theorem c6_counterexample_partial_state_not_selected :
    selectVariant oakDoorVariants
      [("half", "top"), ("facing", "north"), ("unknown_prop", "x")] = none := by
  decide

/-- C6 amended: when the exact canonical state-string key has no variant the
selection falls back to the empty-string (base) variant — and only to it:
with no base variant the selection is empty (the caller then falls through to
name-pattern model lookup); a cataloged variant for a different, partially
matching state key is never selected. When the exact key is present its
variant is chosen. -/
theorem c6_state_fallback_to_base_variant :
    ∀ (variants : List (String × String)) (bs : List (String × String)),
      (getKey variants (stateString bs) = none →
        selectVariant variants bs = getKey variants "") ∧
      (∀ v, getKey variants (stateString bs) = some v →
        selectVariant variants bs = some v) := by
  intro variants bs
  constructor
  · intro h
    unfold selectVariant
    rw [h]
  · intro v h
    unfold selectVariant
    rw [h]

/-- Witness for the amended C6 statement at concrete tables. -/
theorem c6_state_fallback_to_base_variant_witness :
    selectVariant [("", "base")] [("half", "top")] = some "base" ∧
    selectVariant [("half=top", "m")] [("half", "top")] = some "m" := by
  constructor
  · rw [(c6_state_fallback_to_base_variant [("", "base")] [("half", "top")]).1
      (by decide)]
    decide
  · exact (c6_state_fallback_to_base_variant [("half=top", "m")]
      [("half", "top")]).2 "m" (by decide)

/-- C7 counterexample: at the variant rotation `x = 90, y = 90` the code
order (rotate Y first, then X) sends the vertex `(1,0,0)` to `(0,1,0)`, while
the order the claim states (X first, then Y) sends it to `(0,0,-1)` — the two
orders disagree, so the rotation is not applied X-then-Y. -/
theorem c7_counterexample_rotation_order :
    applyBlockStateRotation ⟨90, 90⟩ ⟨1, 0, 0⟩ = ⟨0, 1, 0⟩ ∧
    specOrderStateRotation ⟨90, 90⟩ ⟨1, 0, 0⟩ = ⟨0, 0, -1⟩ ∧
    ¬ applyBlockStateRotation ⟨90, 90⟩ ⟨1, 0, 0⟩ =
        specOrderStateRotation ⟨90, 90⟩ ⟨1, 0, 0⟩ := by
  have h₁ : applyBlockStateRotation ⟨90, 90⟩ ⟨1, 0, 0⟩ = ⟨0, 1, 0⟩ := by
    norm_num [applyBlockStateRotation, rotateXv, rotateYv, cosQ, sinQ]
  have h₂ : specOrderStateRotation ⟨90, 90⟩ ⟨1, 0, 0⟩ = ⟨0, 0, -1⟩ := by
    norm_num [specOrderStateRotation, rotateXv, rotateYv, cosQ, sinQ]
  refine ⟨h₁, h₂, fun h => ?_⟩
  rw [h₁, h₂] at h
  have := congrArg Vec3.y h
  norm_num at this

/-- C7 amended: the variant whole-model rotation is indeed applied to the
entire merged vertex set, about the origin (the block center in the worker
centered worker coordinates), only after all per-element transforms — but in
the order Y rotation first, then X rotation (the opposite of the claimed
X-then-Y order). -/
theorem c7_whole_model_rotation_scope_and_order :
    (∀ (els : List MElement) (r : StateRot) (mergeOk : Bool),
      createGeometryFromModelW (some ⟨some els⟩) (some r) mergeOk =
        (workerMergedVerts els mergeOk).map (applyBlockStateRotation r)) ∧
    (∀ (r : StateRot) (v : Vec3), r.x ≠ 0 → r.y ≠ 0 →
      applyBlockStateRotation r v =
        rotateXv (cosQ r.x) (sinQ r.x) (rotateYv (cosQ r.y) (sinQ r.y) v)) := by
  constructor
  · intro els r mergeOk
    rfl
  · intro r v hx hy
    unfold applyBlockStateRotation
    rw [if_pos hy, if_pos hx]

/-- Witness for the amended C7 statement at a concrete model and rotation. -/
theorem c7_whole_model_rotation_witness :
    createGeometryFromModelW (some ⟨some [fullCubeElement]⟩) (some ⟨90, 90⟩) true =
      (workerMergedVerts [fullCubeElement] true).map
        (applyBlockStateRotation ⟨90, 90⟩) ∧
    applyBlockStateRotation ⟨90, 90⟩ ⟨1, 0, 0⟩ =
      rotateXv (cosQ 90) (sinQ 90) (rotateYv (cosQ 90) (sinQ 90) ⟨1, 0, 0⟩) := by
  exact ⟨c7_whole_model_rotation_scope_and_order.1 [fullCubeElement] ⟨90, 90⟩ true,
    c7_whole_model_rotation_scope_and_order.2 ⟨90, 90⟩ ⟨1, 0, 0⟩
      (by decide) (by decide)⟩

/-- Fuel sufficiency for the texture-reference resolver: starting from any
seen set, resolving a value that occurs among the slot-map values completes
once the fuel exceeds the number of distinct not-yet-seen slot values. Each
recursion step moves the current value into the seen set, and only slot-map
values are ever recursed on. -/
theorem resolveRefAux_isSome (tm textures : List (String × String)) :
    ∀ (n : Nat) (seen : List String) (value : String),
      value ∈ textures.map Prod.snd →
      ((textures.map Prod.snd).toFinset.filter (fun v => v ∉ seen)).card + 1 ≤ n →
      (resolveRefAux tm textures n seen value).isSome := by
  intro n
  induction n with
  | zero =>
    intro seen value hv hn
    exact absurd hn (by omega)
  | succ k ih =>
    intro seen value hv hn
    rw [resolveRefAux]
    by_cases h₀ : value = ""
    · simp [h₀]
    · rw [if_neg h₀]
      by_cases h₁ : value ∈ seen
      · simp [h₁]
      · rw [if_neg h₁]
        by_cases h₂ : startsWithStr value "#"
        · rw [if_pos h₂]
          cases hk : getKey textures (substringFrom1 value) with
          | none => simp
          | some next =>
            apply ih
            · exact getKey_some_mem_snd hk
            · have hvS : value ∈
                  (textures.map Prod.snd).toFinset.filter (fun v => v ∉ seen) :=
                Finset.mem_filter.2 ⟨List.mem_toFinset.2 hv, by simpa using h₁⟩
              have hsub : (textures.map Prod.snd).toFinset.filter
                    (fun v => v ∉ (value :: seen)) =
                  ((textures.map Prod.snd).toFinset.filter
                    (fun v => v ∉ seen)).erase value := by
                ext x
                simp only [Finset.mem_filter, Finset.mem_erase, List.mem_cons]
                tauto
              have hpos : 0 <
                  ((textures.map Prod.snd).toFinset.filter
                    (fun v => v ∉ seen)).card :=
                Finset.card_pos.2 ⟨value, hvS⟩
              rw [hsub, Finset.card_erase_of_mem hvS]
              omega
        · rw [if_neg h₂]
          cases hk : getKey tm (cleanTexturePath value) <;> simp [hk]

/-- The per-call fuel `textures.length + 2` chosen in
`resolveTextureReferences` always suffices: the whole slot map resolves. -/
theorem resolveStep_some {tm textures : List (String × String)} {fuel : Nat}
    {seen seen₁ : List String} {v : String} (res : List (String × String))
    (kv : String × String)
    (h : resolveRefAux tm textures fuel seen kv.2 = some (v, seen₁)) :
    resolveStep tm textures fuel (some (res, seen)) kv =
      some (res ++ [(kv.1, v)], seen₁) := by
  unfold resolveStep
  simp only [h]

theorem resolveTextureReferences_isSome (tm textures : List (String × String)) :
    (resolveTextureReferences tm textures).isSome := by
  unfold resolveTextureReferences
  have main : ∀ (l : List (String × String)),
      (∀ kv ∈ l, kv.2 ∈ textures.map Prod.snd) →
      ∀ (res : List (String × String)) (seen : List String),
        (l.foldl (resolveStep tm textures (textures.length + 2))
          (some (res, seen))).isSome := by
    intro l
    induction l with
    | nil => intro _ res seen; simp
    | cons kv t ih =>
      intro hmem res seen
      have hv : kv.2 ∈ textures.map Prod.snd := hmem kv (List.mem_cons_self _ _)
      have hbound : ((textures.map Prod.snd).toFinset.filter
          (fun v => v ∉ seen)).card + 1 ≤ textures.length + 2 := by
        have h₁ : ((textures.map Prod.snd).toFinset.filter
            (fun v => v ∉ seen)).card ≤ (textures.map Prod.snd).toFinset.card :=
          Finset.card_filter_le _ _
        have h₂ : (textures.map Prod.snd).toFinset.card ≤
            (textures.map Prod.snd).length := (textures.map Prod.snd).toFinset_card_le
        have h₃ : (textures.map Prod.snd).length = textures.length :=
          List.length_map _ _
        omega
      have hsome := resolveRefAux_isSome tm textures (textures.length + 2)
        seen kv.2 hv hbound
      rw [List.foldl_cons]
      rcases hres : resolveRefAux tm textures (textures.length + 2) seen kv.2 with
        _ | ⟨v, seen₁⟩
      · rw [hres] at hsome; cases hsome
      · rw [resolveStep_some res kv hres]
        exact ih (fun x hx => hmem x (List.mem_cons_of_mem _ hx)) _ _
  have hall := main textures (fun kv hkv => List.mem_map.2 ⟨kv, hkv, rfl⟩) [] []
  rcases hfold : textures.foldl (resolveStep tm textures (textures.length + 2))
      (some ([], [])) with _ | p
  · rw [hfold] at hall; cases hall
  · rfl

/-- C3 counterexample: on the self-referential slot map where slot `a` is
`#a`, the resolver returns normally — the slot keeps the dangling reference
string `#a` (still a `#` reference, not a literal path) and no
`UnresolvedTextureError` or any other error signal exists in the code. -/
theorem c3_counterexample_cycle_silently_returns :
    resolveTextureReferences [] [("a", "#a")] = some [("a", "#a")] ∧
    startsWithStr "#a" "#" = true := by
  constructor
  · decide
  · decide

/-- C3 amended: resolution of a texture-slot map always terminates within the
per-call bound `textures.length + 2` (the seen set makes every hop consume a
distinct slot value), and an acyclic reference chain ends at a literal path;
but a cyclic chain silently yields the unresolved `#slot` reference string
unchanged instead of raising `UnresolvedTextureError` — no such error (or any
equivalent signal) exists. A further quirk of the shared seen set: a later
slot whose literal value was already visited while chasing an earlier chain is
returned raw, skipping the texture-map lookup (slot `b` below). -/
theorem c3_texture_chain_bounded_no_error :
    (∀ tm textures : List (String × String),
      (resolveTextureReferences tm textures).isSome) ∧
    resolveTextureReferences [("stone", "block/stone.png")]
        [("a", "#b"), ("b", "stone")] =
      some [("a", "block/stone.png"), ("b", "stone")] := by
  exact ⟨fun tm textures => resolveTextureReferences_isSome tm textures, by decide⟩

/-- The span of a translated box: its lower corner is the translation minus
half the (nonnegative) box dimensions. -/
theorem lowerCorner_translateV_box (p : Vec3) (sx sy sz : ℚ)
    (hx : 0 ≤ sx) (hy : 0 ≤ sy) (hz : 0 ≤ sz) :
    lowerCorner (translateV p (boxCorners sx sy sz)) =
      ⟨p.x - sx/2, p.y - sy/2, p.z - sz/2⟩ := by
  have ex : min (-sx/2 + p.x) (sx/2 + p.x) = -sx/2 + p.x :=
    min_eq_left (by linarith)
  have ey : min (-sy/2 + p.y) (sy/2 + p.y) = -sy/2 + p.y :=
    min_eq_left (by linarith)
  have ez : min (-sz/2 + p.z) (sz/2 + p.z) = -sz/2 + p.z :=
    min_eq_left (by linarith)
  unfold boxCorners translateV lowerCorner
  simp only [List.map_cons, List.map_nil, List.foldl_cons, List.foldl_nil,
    ex, ey, ez, min_self, Vec3.mk.injEq]
  refine ⟨by ring, by ring, by ring⟩

/-- The span of a translated box: its upper corner is the translation plus
half the (nonnegative) box dimensions. -/
theorem upperCorner_translateV_box (p : Vec3) (sx sy sz : ℚ)
    (hx : 0 ≤ sx) (hy : 0 ≤ sy) (hz : 0 ≤ sz) :
    upperCorner (translateV p (boxCorners sx sy sz)) =
      ⟨p.x + sx/2, p.y + sy/2, p.z + sz/2⟩ := by
  have ex : max (-sx/2 + p.x) (sx/2 + p.x) = sx/2 + p.x :=
    max_eq_right (by linarith)
  have ey : max (-sy/2 + p.y) (sy/2 + p.y) = sy/2 + p.y :=
    max_eq_right (by linarith)
  have ez : max (-sz/2 + p.z) (sz/2 + p.z) = sz/2 + p.z :=
    max_eq_right (by linarith)
  have ex₁ : max (sx/2 + p.x) (-sx/2 + p.x) = sx/2 + p.x :=
    max_eq_left (by linarith)
  have ey₁ : max (sy/2 + p.y) (-sy/2 + p.y) = sy/2 + p.y :=
    max_eq_left (by linarith)
  have ez₁ : max (sz/2 + p.z) (-sz/2 + p.z) = sz/2 + p.z :=
    max_eq_left (by linarith)
  unfold boxCorners translateV upperCorner
  simp only [List.map_cons, List.map_nil, List.foldl_cons, List.foldl_nil,
    ex, ey, ez, ex₁, ey₁, ez₁, max_self, Vec3.mk.injEq]
  refine ⟨by ring, by ring, by ring⟩

/-- Evaluation of the worker element baking on a rotation-free element. -/
theorem workerElementVerts_noRot (a b c d e f : ℚ) (fs : List (String × RFace)) :
    workerElementVerts ⟨some [a, b, c], some [d, e, f], none, some fs⟩ =
      some (translateV
        ⟨a/16 + |d/16 - a/16|/2 - 1/2, b/16 + |e/16 - b/16|/2 - 1/2,
          c/16 + |f/16 - c/16|/2 - 1/2⟩
        (boxCorners (|d/16 - a/16|) (|e/16 - b/16|) (|f/16 - c/16|))) := by
  unfold workerElementVerts
  norm_num [List.getD]

/-- Evaluation of the renderer element baking on a rotation-free element. -/
theorem rendererElementVerts_noRot (a b c d e f : ℚ)
    (fs : Option (List (String × RFace))) :
    rendererElementVerts ⟨some [a, b, c], some [d, e, f], none, fs⟩ =
      some (translateV
        ⟨a/16 + |d - a|/16/2, b/16 + |e - b|/16/2, c/16 + |f - c|/16/2⟩
        (boxCorners (max (|d - a|/16) (1/1000)) (max (|e - b|/16) (1/1000))
          (max (|f - c|/16) (1/1000)))) := by
  unfold rendererElementVerts
  norm_num [List.getD]

/-- C4 counterexample: baking the element `from = [0,0,0], to = [16,16,16]`
through BlockModelRenderer.createGeometryFromModel yields a unit cube spanning
`[0,0,0]`-`[1,1,1]` — the box corner, not its center, sits at the origin, so
this baker does not apply the claimed `coord/16 - 0.5` conversion. -/
theorem c4_counterexample_renderer_corner_origin :
    lowerCorner ((rendererElementVerts fullCubeElement).getD []) = ⟨0, 0, 0⟩ ∧
    upperCorner ((rendererElementVerts fullCubeElement).getD []) = ⟨1, 1, 1⟩ ∧
    ¬ lowerCorner ((rendererElementVerts fullCubeElement).getD []) =
        ⟨-(1/2), -(1/2), -(1/2)⟩ := by
  have he : fullCubeElement =
      ⟨some [0, 0, 0], some [16, 16, 16], none, some fullCubeFaces⟩ := rfl
  have habs : |(16:ℚ) - 0| = 16 := by norm_num
  have hmax : max ((16:ℚ)/16) (1/1000) = 1 := by
    rw [max_eq_left (by norm_num)]
    norm_num
  have hv := rendererElementVerts_noRot 0 0 0 16 16 16 (some fullCubeFaces)
  rw [habs] at hv
  have h₁ : lowerCorner ((rendererElementVerts fullCubeElement).getD []) =
      ⟨0, 0, 0⟩ := by
    rw [he, hv, Option.getD_some, hmax,
      lowerCorner_translateV_box _ _ _ _ (by norm_num) (by norm_num) (by norm_num)]
    simp only [Vec3.mk.injEq]
    norm_num
  have h₂ : upperCorner ((rendererElementVerts fullCubeElement).getD []) =
      ⟨1, 1, 1⟩ := by
    rw [he, hv, Option.getD_some, hmax,
      upperCorner_translateV_box _ _ _ _ (by norm_num) (by norm_num) (by norm_num)]
    simp only [Vec3.mk.injEq]
    norm_num
  refine ⟨h₁, h₂, fun h => ?_⟩
  rw [h₁] at h
  have := congrArg Vec3.x h
  norm_num at this

/-- C4 amended: the `coord/16 - 0.5` centering conversion holds in
EnhancedMockWorker.createGeometryFromModel, whose rotation-free elements span
exactly `from/16 - 0.5` to `to/16 - 0.5` (so the full element bakes to the
unit cube `[-0.5,0.5]^3`); in BlockModelRenderer.createGeometryFromModel,
however, the conversion is `coord/16` with no recentering, spanning
`[0,1]^3` for the same element. -/
theorem c4_worker_centered_coordinates :
    ∀ (a b c d e f : ℚ) (fs : List (String × RFace)),
      a ≤ d → b ≤ e → c ≤ f →
      lowerCorner ((workerElementVerts
          ⟨some [a, b, c], some [d, e, f], none, some fs⟩).getD []) =
        ⟨a/16 - 1/2, b/16 - 1/2, c/16 - 1/2⟩ ∧
      upperCorner ((workerElementVerts
          ⟨some [a, b, c], some [d, e, f], none, some fs⟩).getD []) =
        ⟨d/16 - 1/2, e/16 - 1/2, f/16 - 1/2⟩ := by
  intro a b c d e f fs had hbe hcf
  have hd : |d/16 - a/16| = d/16 - a/16 := abs_of_nonneg (by linarith)
  have he : |e/16 - b/16| = e/16 - b/16 := abs_of_nonneg (by linarith)
  have hf : |f/16 - c/16| = f/16 - c/16 := abs_of_nonneg (by linarith)
  rw [workerElementVerts_noRot, Option.getD_some, hd, he, hf]
  constructor
  · rw [lowerCorner_translateV_box _ _ _ _ (by linarith) (by linarith) (by linarith)]
    simp only [Vec3.mk.injEq]
    refine ⟨by ring, by ring, by ring⟩
  · rw [upperCorner_translateV_box _ _ _ _ (by linarith) (by linarith) (by linarith)]
    simp only [Vec3.mk.injEq]
    refine ⟨by ring, by ring, by ring⟩

/-- Witness for the amended C4 statement: the full-cube element bakes to
exactly `[-0.5,0.5]^3` in the worker baker. -/
theorem c4_worker_centered_coordinates_witness :
    lowerCorner ((workerElementVerts fullCubeElement).getD []) =
      ⟨-(1/2), -(1/2), -(1/2)⟩ ∧
    upperCorner ((workerElementVerts fullCubeElement).getD []) =
      ⟨1/2, 1/2, 1/2⟩ := by
  have h := c4_worker_centered_coordinates 0 0 0 16 16 16 fullCubeFaces
    (by norm_num) (by norm_num) (by norm_num)
  have he : fullCubeElement =
      ⟨some [0, 0, 0], some [16, 16, 16], none, some fullCubeFaces⟩ := rfl
  rw [he]
  refine ⟨h.1.trans ?_, h.2.trans ?_⟩ <;>
    · simp only [Vec3.mk.injEq]
      norm_num

/-- C8 counterexample: no reserved placeholder/missing-texture UV rectangle
exists in the code. Resolving the slot map whose only value is the dangling
reference `#missing` returns it unchanged (still a `#` reference, not a
placeholder path), and the baked face UVs of a face referencing `#missing`
are identical to those of a face referencing an ordinary texture — nothing is
substituted for the missing slot. -/
theorem c8_counterexample_no_placeholder_substituted :
    resolveTextureReferences [] [("all", "#missing")] = some [("all", "#missing")] ∧
    rendererFaceUVCorners (fullFace "#missing") =
      rendererFaceUVCorners (fullFace "block/stone") := by
  constructor
  · decide
  · rw [rendererFaceUVCorners_fullFace, rendererFaceUVCorners_fullFace]

/-- C8 amended: baking a model with a face whose texture reference has no
entry in the resolved slot map indeed never throws and continues over the
remaining faces and elements — but not by substituting a reserved placeholder
UV rectangle: the baker never consults the face `texture` field at all (the
baked UVs depend only on the own `uv` of the face), the unresolved `#` reference is
carried through texture resolution unchanged, and both faces of the scenario
element are baked normally. -/
theorem c8_missing_texture_never_aborts :
    (∀ (uv : Option (List ℚ)) (rot : Option Int) (t₁ t₂ : Option String),
      rendererFaceUVCorners ⟨uv, t₁, rot⟩ = rendererFaceUVCorners ⟨uv, t₂, rot⟩) ∧
    (rendererBakeFaces (some missingFaces)).map Prod.fst = ["north", "south"] ∧
    (∀ mergeFn : List BakedElement → Option Nat,
      createGeometryFromModel mergeFn (some ⟨some [missingFaceElement]⟩) =
        RGeo.single ⟨(rendererElementVerts missingFaceElement).getD [],
          rendererBakeFaces (some missingFaces)⟩) := by
  refine ⟨fun uv rot t₁ t₂ => rfl, ?_, ?_⟩
  · unfold missingFaces rendererBakeFaces
    simp [faceMapNames, rendererFaceUVCorners_fullFace]
  · intro mergeFn
    have he : missingFaceElement =
        (⟨some [0, 0, 0], some [16, 16, 16], none, some missingFaces⟩ : MElement) :=
      rfl
    have hv := rendererElementVerts_noRot 0 0 0 16 16 16 (some missingFaces)
    rw [← he] at hv
    simp only [createGeometryFromModel]
    simp [rendererBakeElement, hv]
    rfl

/-- C10: BlockModelRenderer.createGeometryFromModel is total, returning a
geometry on every input: a null model, a model with no element list or an
empty one, a model whose every element is skipped as malformed, and a failed
merge of several element geometries all fall back to a clone of the default
unit-cube box geometry. -/
theorem c10_create_geometry_total_fallback :
    (∀ mergeFn : List BakedElement → Option Nat,
      createGeometryFromModel mergeFn none = RGeo.defaultClone) ∧
    (∀ mergeFn : List BakedElement → Option Nat,
      createGeometryFromModel mergeFn (some ⟨none⟩) = RGeo.defaultClone) ∧
    (∀ mergeFn : List BakedElement → Option Nat,
      createGeometryFromModel mergeFn (some ⟨some []⟩) = RGeo.defaultClone) ∧
    (∀ (mergeFn : List BakedElement → Option Nat) (els : List MElement),
      els.filterMap rendererBakeElement = [] →
      createGeometryFromModel mergeFn (some ⟨some els⟩) = RGeo.defaultClone) ∧
    (∀ (mergeFn : List BakedElement → Option Nat) (els : List MElement)
        (g₁ g₂ : BakedElement) (rest : List BakedElement),
      els.filterMap rendererBakeElement = g₁ :: g₂ :: rest →
      mergeFn (g₁ :: g₂ :: rest) = none →
      createGeometryFromModel mergeFn (some ⟨some els⟩) = RGeo.defaultClone) := by
  refine ⟨fun _ => rfl, fun _ => rfl, fun _ => rfl, ?_, ?_⟩
  · intro mergeFn els hf
    simp only [createGeometryFromModel]
    by_cases hlen : els.length = 0
    · rw [if_pos hlen]
    · rw [if_neg hlen, hf]
  · intro mergeFn els g₁ g₂ rest hf hm
    simp only [createGeometryFromModel]
    have hne : els.length ≠ 0 := by
      intro h₀
      rw [List.length_eq_zero] at h₀
      subst h₀
      simp at hf
    rw [if_neg hne, hf]
    show (match mergeFn (g₁ :: g₂ :: rest) with
      | some h => RGeo.merged h
      | none => RGeo.defaultClone) = RGeo.defaultClone
    rw [hm]

/-- Witness for C10 at concrete degenerate inputs: a model whose only element
lacks `from`/`to` (skipped, so zero geometries survive), and a two-element
model under a merge function that fails. -/
theorem c10_create_geometry_total_fallback_witness :
    createGeometryFromModel (fun _ => none)
        (some ⟨some [⟨none, none, none, none⟩]⟩) = RGeo.defaultClone ∧
    createGeometryFromModel (fun _ => none)
        (some ⟨some [fullCubeElement, fullCubeElement]⟩) = RGeo.defaultClone := by
  constructor
  · exact c10_create_geometry_total_fallback.2.2.2.1 _ _ rfl
  · have he : fullCubeElement =
        (⟨some [0, 0, 0], some [16, 16, 16], none, some fullCubeFaces⟩ : MElement) :=
      rfl
    have hv := rendererElementVerts_noRot 0 0 0 16 16 16 (some fullCubeFaces)
    rw [← he] at hv
    have hg : rendererBakeElement fullCubeElement =
        some ⟨(rendererElementVerts fullCubeElement).getD [],
          rendererBakeFaces (some fullCubeFaces)⟩ := by
      unfold rendererBakeElement
      rw [hv]
      rfl
    exact c10_create_geometry_total_fallback.2.2.2.2 (fun _ => none)
      [fullCubeElement, fullCubeElement]
      ⟨(rendererElementVerts fullCubeElement).getD [],
        rendererBakeFaces (some fullCubeFaces)⟩
      ⟨(rendererElementVerts fullCubeElement).getD [],
        rendererBakeFaces (some fullCubeFaces)⟩ []
      (by simp [List.filterMap_cons, hg]) rfl

theorem mapSet_of_none {α : Type} {m : List (String × α)} {k : String}
    (h : getKey m k = none) (v : α) : mapSet m k v = m ++ [(k, v)] := by
  induction m with
  | nil => rfl
  | cons hd t ih =>
    rw [getKey] at h
    unfold mapSet
    by_cases hk : hd.1 = k
    · rw [if_pos hk] at h; cases h
    · rw [if_neg hk] at h
      rw [if_neg hk, ih h]
      rfl

theorem mapSet_fst_of_some {α : Type} {m : List (String × α)} {k : String}
    {old : α} (h : getKey m k = some old) (v : α) :
    (mapSet m k v).map Prod.fst = m.map Prod.fst := by
  induction m with
  | nil => cases h
  | cons hd t ih =>
    rw [getKey] at h
    unfold mapSet
    by_cases hk : hd.1 = k
    · rw [if_pos hk]
      rfl
    · rw [if_neg hk] at h
      rw [if_neg hk]
      simp [ih h]

/-- Replacing the value of a registered key permutes the value multiset:
the new value comes in, the old value goes out. -/
theorem mapSet_snd_perm_of_some {m : List (String × Nat)} {k : String}
    {old : Nat} (h : getKey m k = some old) (v : Nat) :
    ((mapSet m k v).map Prod.snd).Perm (v :: (m.map Prod.snd).erase old) := by
  induction m with
  | nil => cases h
  | cons hd t ih =>
    rw [getKey] at h
    unfold mapSet
    by_cases hk : hd.1 = k
    · rw [if_pos hk] at h
      injection h with h₁
      rw [if_pos hk]
      simp only [List.map_cons, h₁, List.erase_cons_head]
      exact List.Perm.refl _
    · rw [if_neg hk] at h
      rw [if_neg hk]
      simp only [List.map_cons]
      have hmem : old ∈ t.map Prod.snd := getKey_some_mem_snd h
      by_cases hv : hd.2 = old
      · subst hv
        rw [List.erase_cons_head]
        exact ((ih h).cons hd.2).trans ((List.Perm.swap v hd.2 _).trans
          (((List.perm_cons_erase hmem).symm).cons v))
      · rw [List.erase_cons_tail (by simpa using hv)]
        exact ((ih h).cons hd.2).trans (List.Perm.swap v hd.2 _)

/-- One scene registration preserves the registry/scene invariant: registry
keys stay duplicate-free, the scene children remain exactly the registered
units (as a multiset), and every registered unit is either the new one or was
registered before. Freshness of the new unit is required — the JS code always
passes a newly constructed mesh. -/
theorem addMeshToScene_invariant (st : SceneState) (k : String) (m : Nat)
    (h₁ : (st.meshes.map Prod.fst).Nodup)
    (h₂ : st.scene.Perm (st.meshes.map Prod.snd)) :
    ((addMeshToScene st k m).meshes.map Prod.fst).Nodup ∧
    ((addMeshToScene st k m).scene).Perm
      ((addMeshToScene st k m).meshes.map Prod.snd) ∧
    (((addMeshToScene st k m).meshes.map Prod.snd).Subperm
      (m :: st.meshes.map Prod.snd)) := by
  cases hk : getKey st.meshes k with
  | some old =>
    have hmem : old ∈ st.meshes.map Prod.snd := getKey_some_mem_snd hk
    have hperm := mapSet_snd_perm_of_some hk m
    refine ⟨?_, ?_, ?_⟩
    · simp only [addMeshToScene, hk]
      rw [mapSet_fst_of_some hk]
      exact h₁
    · simp only [addMeshToScene, hk]
      exact (((h₂.erase old).append_right [m]).trans
        ((List.perm_append_singleton m _).trans hperm.symm))
    · simp only [addMeshToScene, hk]
      exact ⟨m :: (st.meshes.map Prod.snd).erase old, hperm.symm,
        List.Sublist.cons₂ m (List.erase_sublist _ _)⟩
  | none =>
    refine ⟨?_, ?_, ?_⟩
    · simp only [addMeshToScene, hk]
      rw [mapSet_of_none hk]
      simp only [List.map_append, List.map_cons, List.map_nil]
      rw [List.nodup_append]
      refine ⟨h₁, List.nodup_singleton _, ?_⟩
      intro a ha hb
      simp only [List.mem_singleton] at hb
      exact (getKey_none_iff st.meshes k).1 hk (hb ▸ ha)
    · simp only [addMeshToScene, hk]
      rw [mapSet_of_none hk]
      simp only [List.map_append, List.map_cons, List.map_nil]
      exact h₂.append_right [m]
    · simp only [addMeshToScene, hk]
      rw [mapSet_of_none hk]
      simp only [List.map_append, List.map_cons, List.map_nil]
      exact ⟨m :: st.meshes.map Prod.snd,
        (List.perm_append_singleton m _).symm, List.Sublist.refl _⟩

/-- Invariant preservation along any run of scene registrations, assuming the
registered units are pairwise distinct fresh objects (no unit appears twice in
the state or the pending calls). -/
theorem addMesh_run_invariant (calls : List (String × Nat)) :
    ∀ st : SceneState,
      (st.meshes.map Prod.fst).Nodup →
      st.scene.Perm (st.meshes.map Prod.snd) →
      (st.meshes.map Prod.snd ++ calls.map Prod.snd).Nodup →
      (((calls.foldl (fun s c => addMeshToScene s c.1 c.2) st).meshes.map
        Prod.fst).Nodup ∧
      ((calls.foldl (fun s c => addMeshToScene s c.1 c.2) st).scene).Perm
        ((calls.foldl (fun s c => addMeshToScene s c.1 c.2) st).meshes.map
          Prod.snd)) := by
  induction calls with
  | nil =>
    intro st h₁ h₂ _
    exact ⟨h₁, h₂⟩
  | cons c t ih =>
    intro st h₁ h₂ h₃
    rw [List.foldl_cons]
    obtain ⟨hA, hB, hC⟩ := addMeshToScene_invariant st c.1 c.2 h₁ h₂
    apply ih _ hA hB
    obtain ⟨u, hu, hus⟩ := hC
    have hsub : (u ++ t.map Prod.snd).Sublist
        ((c.2 :: st.meshes.map Prod.snd) ++ t.map Prod.snd) :=
      hus.append_right _
    have hbig : ((c.2 :: st.meshes.map Prod.snd) ++ t.map Prod.snd).Nodup := by
      have hperm : ((c.2 :: st.meshes.map Prod.snd) ++ t.map Prod.snd).Perm
          (st.meshes.map Prod.snd ++ c.2 :: t.map Prod.snd) := by
        simp only [List.cons_append]
        exact List.perm_middle.symm
      rw [hperm.nodup_iff]
      simpa using h₃
    have hun : (u ++ t.map Prod.snd).Nodup := List.Nodup.sublist hsub hbig
    exact ((hu.append_right (t.map Prod.snd)).nodup_iff).1 hun

/-- C9: re-assembling under an already-used (chunk, type, state) key replaces
and releases the prior unit, so after any sequence of registrations (each
with a freshly constructed render unit, as in the code) the registry holds at
most one unit per key and the scene children are exactly the registered
units — one per key, with no stale duplicates left behind. -/
theorem c9_single_unit_per_key :
    ∀ calls : List (String × Nat), (calls.map Prod.snd).Nodup →
      ((runAddMesh calls).meshes.map Prod.fst).Nodup ∧
      (runAddMesh calls).scene.Perm ((runAddMesh calls).meshes.map Prod.snd) := by
  intro calls h
  exact addMesh_run_invariant calls ⟨[], []⟩ List.nodup_nil
    (List.Perm.refl _) (by simpa using h)

/-- Witness for C9: a run that registers the key `0,0,1` twice ends with
duplicate-free registry keys and a scene matching the registry. -/
theorem c9_single_unit_per_key_witness :
    ((runAddMesh [("0,0,1", 10), ("0,0,1", 11), ("0,0,2", 12)]).meshes.map
      Prod.fst).Nodup ∧
    (runAddMesh [("0,0,1", 10), ("0,0,1", 11), ("0,0,2", 12)]).scene.Perm
      ((runAddMesh [("0,0,1", 10), ("0,0,1", 11), ("0,0,2", 12)]).meshes.map
        Prod.snd) :=
  c9_single_unit_per_key [("0,0,1", 10), ("0,0,1", 11), ("0,0,2", 12)]
    (by decide)

end NbtGltf
